import Mathlib

/-!
Verification of the stream reconciliation engine of a real-time message
feed client. The client exists in two transport variants, a bidirectional
WebSocket page and a push-only SSE page, each with its own message apply
function (`handleNewMessage`), snapshot loader (`loadMessages`), and
publish/edit gateway (`sendMessage`, `saveEdit`). The definitions below
are shallow embeddings of those functions; network effects are made
explicit as outcome parameters, and React state updates become explicit
state passing.
-/

namespace Messenger

/-- The `Message` record from both pages: `_id?: string`, `author: string`,
`text: string`, `timestamp?: number` (epoch seconds). -/
structure Message where
  _id : Option String
  author : String
  text : String
  timestamp : Option Nat
deriving DecidableEq

/-- JavaScript truthiness of the optional `_id` field: `undefined` and the
empty string are falsy, every other string is truthy. This is exactly the
test `!msg._id` in the WebSocket page's `handleNewMessage` and the test
`if (msg._id)` in its `loadMessages`. -/
def idTruthy : Option String → Bool
  | none => false
  | some s => !(s == "")

/-- `Array.prototype.findIndex`, returning `none` instead of `-1` when no
element satisfies the test function. -/
def findIndex (p : α → Bool) : List α → Option Nat
  | [] => none
  | x :: xs => if p x then some 0 else (findIndex p xs).map (· + 1)

/-- The SSE page's `handleNewMessage`: find the first entry whose `_id` is
strictly equal (`===`) to the incoming `_id` and overwrite it in place,
otherwise append. Note that `===` on two absent `_id` values is true. -/
def sseHandleNewMessage (prev : List Message) (msg : Message) : List Message :=
  match findIndex (fun m => m._id == msg._id) prev with
  | some idx => prev.set idx msg
  | none => prev ++ [msg]

/-- The WebSocket page's mutable state relevant to reconciliation: the
`messages` React state and the `messageIds` ref, a `Set<string>` of ids
already observed. -/
structure WsState where
  messages : List Message
  messageIds : Finset String
deriving DecidableEq

/-- The WebSocket page's `handleNewMessage`:
1. `!msg._id` (absent or empty id): append directly;
2. id already in the `messageIds` set: log a duplicate and return the
   previous state unchanged;
3. otherwise add the id to the set, then overwrite in place when an entry
   with that id exists (`findIndex`), else append. -/
def wsHandleNewMessage (st : WsState) (msg : Message) : WsState :=
  match msg._id with
  | none => { st with messages := st.messages ++ [msg] }
  | some s =>
    if s == "" then
      { st with messages := st.messages ++ [msg] }
    else if s ∈ st.messageIds then
      st
    else
      let ids := insert s st.messageIds
      match findIndex (fun m => m._id == msg._id) st.messages with
      | some idx => { messages := st.messages.set idx msg, messageIds := ids }
      | none => { messages := st.messages ++ [msg], messageIds := ids }

/-- Apply a sequence of live events in delivery order, WebSocket variant. -/
def wsApplyEvents (st : WsState) (es : List Message) : WsState :=
  es.foldl wsHandleNewMessage st

/-- Apply a sequence of live events in delivery order, SSE variant. -/
def sseApplyEvents (prev : List Message) (es : List Message) : List Message :=
  es.foldl sseHandleNewMessage prev

/-- The truthy value of an optional id: `some s` exactly when `idTruthy`
holds of it. -/
def truthyId : Option String → Option String
  | some s => if s == "" then none else some s
  | none => none

/-- The truthy id carried by a message, if any. -/
def truthyIdOf (m : Message) : Option String :=
  truthyId m._id

/-- The list of truthy ids of the entries of a collection, in order. -/
def truthyIds (l : List Message) : List String :=
  l.filterMap truthyIdOf

/-- The collection invariant of the spec's data model: at most one entry
per non-absent id (presence taken as the source's JS truthiness test). -/
def uniqueIds (l : List Message) : Prop :=
  (truthyIds l).Nodup

instance (l : List Message) : Decidable (uniqueIds l) :=
  inferInstanceAs (Decidable (truthyIds l).Nodup)

/-- Outcome of the snapshot fetch pipeline `fetch(...).json()`: the fetch
may reject (network error), or resolve with a response carrying a success
flag (`response.ok`, which neither page reads in `loadMessages`) and a
body that either parses to a message list or fails to parse (`none`). -/
inductive FetchMessagesOutcome where
  | netError : FetchMessagesOutcome
  | response (ok : Bool) (body : Option (List Message)) : FetchMessagesOutcome

/-- Seeding of the WebSocket page's `messageIds` set in `loadMessages`:
`forEach (msg => { if (msg._id) add(msg._id) })`, i.e. the set of truthy
ids of the snapshot. -/
def seedIds (l : List Message) : Finset String :=
  (truthyIds l).toFinset

/-- The WebSocket page's `loadMessages` as a function of the fetch
outcome, returning the resulting state and whether a failure was logged.
A thrown error (rejected fetch or unparseable body) is caught and logged,
leaving the initial empty state; a parsed body is installed as the
snapshot and seeds the id set, with `response.ok` never examined. -/
def wsLoadMessages : FetchMessagesOutcome → WsState × Bool
  | .netError => (⟨[], ∅⟩, true)
  | .response _ none => (⟨[], ∅⟩, true)
  | .response _ (some msgs) => (⟨msgs, seedIds msgs⟩, false)

/-- The SSE page's `loadMessages`: same fetch pipeline, no id set. -/
def sseLoadMessages : FetchMessagesOutcome → List Message × Bool
  | .netError => ([], true)
  | .response _ none => ([], true)
  | .response _ (some msgs) => (msgs, false)

/-- An inbound transport frame: its payload either parses as a `Message`
or fails to parse (`JSON.parse` throws). -/
inductive Frame where
  | ok (msg : Message) : Frame
  | malformed : Frame

/-- The WebSocket page's `onmessage` handler: `JSON.parse` inside
`try/catch`; a malformed frame is caught and logged, leaving the state
unchanged. -/
def wsOnMessage (st : WsState) (f : Frame) : WsState :=
  match f with
  | .ok m => wsHandleNewMessage st m
  | .malformed => st

/-- Delivery of a frame sequence to the WebSocket `onmessage` handler. -/
def wsProcessFrames (st : WsState) (fs : List Frame) : WsState :=
  fs.foldl wsOnMessage st

/-- The SSE page's `onmessage` handler: `JSON.parse(event.data)` with no
`try/catch`, so a malformed frame throws out of the handler before any
state update; the result is an exception (`Except.error`). -/
def sseOnMessageE (prev : List Message) (f : Frame) : Except Unit (List Message) :=
  match f with
  | .ok m => .ok (sseHandleNewMessage prev m)
  | .malformed => .error ()

/-- Delivery of a frame sequence to the SSE `onmessage` handler under the
browser's event dispatch, which isolates an exception thrown by one
handler invocation from later deliveries: an erroring invocation leaves
the React state unchanged (the throw happens before `setMessages`), and
the `EventSource` keeps delivering subsequent frames. -/
def sseProcessFrames (prev : List Message) (fs : List Frame) : List Message :=
  fs.foldl
    (fun acc f =>
      match sseOnMessageE acc f with
      | .ok l => l
      | .error _ => acc)
    prev

/-- JavaScript `String.prototype.trim`: drop whitespace from both ends of
the string (written over the character list so that it evaluates inside
the kernel). -/
def jsTrim (s : String) : String :=
  ⟨((s.data.dropWhile Char.isWhitespace).reverse.dropWhile Char.isWhitespace).reverse⟩

/-- Outcome of a gateway request: the fetch rejects, or resolves with a
response whose `ok` flag is the success indicator. -/
inductive RequestOutcome where
  | netError : RequestOutcome
  | response (ok : Bool) : RequestOutcome

/-- The full WebSocket page component state touched by the gateway. -/
structure WsComponent where
  messages : List Message
  text : String
  author : String
  editingId : Option String
  editText : String
  messageIds : Finset String
deriving DecidableEq

/-- The full SSE page component state touched by the gateway. -/
structure SseComponent where
  messages : List Message
  text : String
  author : String
  editingId : Option String
  editText : String
deriving DecidableEq

/-- The WebSocket page's `sendMessage` as a function of the request
outcome, returning the new component state and whether a failure was
logged: early return when the trimmed text or author is empty; on a
rejected fetch the catch block logs; on a resolved response, `setText` is
called only when `response.ok`, else the failure body is logged. -/
def wsSendMessage (st : WsComponent) (outcome : RequestOutcome) : WsComponent × Bool :=
  if jsTrim st.text == "" || jsTrim st.author == "" then (st, false)
  else
    match outcome with
    | .netError => (st, true)
    | .response true => ({ st with text := "" }, false)
    | .response false => (st, true)

/-- The SSE page's `sendMessage`: same guard, then `await fetch(...)`
followed unconditionally by `setText('')`. There is no `try/catch` and
`response.ok` is never read: a rejected fetch aborts before the clear
(nothing logged by the page), while any resolved response clears the
text. -/
def sseSendMessage (st : SseComponent) (outcome : RequestOutcome) : SseComponent × Bool :=
  if jsTrim st.text == "" || jsTrim st.author == "" then (st, false)
  else
    match outcome with
    | .netError => (st, false)
    | .response _ => ({ st with text := "" }, false)

/-- The WebSocket page's `saveEdit`: `await fetch(PUT ...)` then clear the
editing state. A rejected fetch aborts before the clears; a resolved
response of any status clears `editingId` and `editText`. -/
def wsSaveEdit (st : WsComponent) (_id : String) (outcome : RequestOutcome) :
    WsComponent × Bool :=
  match outcome with
  | .netError => (st, false)
  | .response _ => ({ st with editingId := none, editText := "" }, false)

/-- The SSE page's `saveEdit`: identical shape to the WebSocket one. -/
def sseSaveEdit (st : SseComponent) (_id : String) (outcome : RequestOutcome) :
    SseComponent × Bool :=
  match outcome with
  | .netError => (st, false)
  | .response _ => ({ st with editingId := none, editText := "" }, false)

/-! ### Helper lemmas about `findIndex`, `List.set`, and truthy ids -/

theorem findIndex_eq_none_iff (p : α → Bool) (l : List α) :
    findIndex p l = none ↔ ∀ x ∈ l, p x = false := by
  induction l with
  | nil => simp [findIndex]
  | cons x xs ih =>
    cases h : p x with
    | true => simp [findIndex, h]
    | false => simp [findIndex, h, Option.map_eq_none', ih]

theorem findIndex_eq_some (p : α → Bool) (l : List α) (i : Nat)
    (h : findIndex p l = some i) : ∃ x, l[i]? = some x ∧ p x = true := by
  induction l generalizing i with
  | nil => simp [findIndex] at h
  | cons x xs ih =>
    cases hx : p x with
    | true =>
      simp [findIndex, hx] at h
      exact ⟨x, by simp [← h], hx⟩
    | false =>
      simp [findIndex, hx, Option.map_eq_some'] at h
      obtain ⟨j, hj, rfl⟩ := h
      obtain ⟨y, hy, hpy⟩ := ih j hj
      exact ⟨y, by simpa using hy, hpy⟩

theorem findIndex_set_self (p : α → Bool) (l : List α) (i : Nat) (a : α)
    (h : findIndex p l = some i) (ha : p a = true) :
    findIndex p (l.set i a) = some i := by
  induction l generalizing i with
  | nil => simp [findIndex] at h
  | cons x xs ih =>
    cases hx : p x with
    | true =>
      simp [findIndex, hx] at h
      simp [← h, List.set, findIndex, ha]
    | false =>
      simp [findIndex, hx, Option.map_eq_some'] at h
      obtain ⟨j, hj, rfl⟩ := h
      simp [List.set, findIndex, hx, ih j hj]

theorem findIndex_append_singleton (p : α → Bool) (l : List α) (a : α)
    (h : findIndex p l = none) (ha : p a = true) :
    findIndex p (l ++ [a]) = some l.length := by
  induction l with
  | nil => simp [findIndex, ha]
  | cons x xs ih =>
    have hx : p x = false := ((findIndex_eq_none_iff p (x :: xs)).mp h) x (by simp)
    have hxs : findIndex p xs = none := by
      rw [findIndex_eq_none_iff] at h ⊢
      exact fun y hy => h y (by simp [hy])
    simp [findIndex, hx, ih hxs]

theorem set_append_length (l : List α) (a b : α) :
    (l ++ [a]).set l.length b = l ++ [b] := by
  induction l with
  | nil => simp
  | cons x xs ih => simp [List.set, ih]

theorem truthyId_eq_some_iff {o : Option String} {s : String} :
    truthyId o = some s ↔ o = some s ∧ s ≠ "" := by
  cases o with
  | none => simp [truthyId]
  | some t =>
    by_cases ht : t = ""
    · subst ht
      have h1 : truthyId (some "") = none := by simp [truthyId]
      rw [h1]
      constructor
      · intro h; cases h
      · rintro ⟨h, hs⟩
        have h2 : "" = s := by injection h
        exact (hs h2.symm).elim
    · have h1 : truthyId (some t) = some t := by simp [truthyId, ht]
      rw [h1]
      constructor
      · intro h
        have hts : t = s := by injection h
        exact ⟨h, fun hs => ht (hts.trans hs)⟩
      · exact fun h => h.1

theorem truthyId_eq_none_of_not_truthy {o : Option String}
    (h : idTruthy o = false) : truthyId o = none := by
  cases o with
  | none => rfl
  | some t =>
    simp [idTruthy] at h
    simp [truthyId, h]

theorem truthyIdOf_eq_some_iff {m : Message} {s : String} :
    truthyIdOf m = some s ↔ m._id = some s ∧ s ≠ "" :=
  truthyId_eq_some_iff

theorem truthyIds_append (l₁ l₂ : List Message) :
    truthyIds (l₁ ++ l₂) = truthyIds l₁ ++ truthyIds l₂ := by
  simp [truthyIds, List.filterMap_append]

theorem mem_truthyIds {s : String} {l : List Message} :
    s ∈ truthyIds l ↔ ∃ m ∈ l, truthyIdOf m = some s := by
  simp [truthyIds, List.mem_filterMap]

theorem truthyIds_set (l : List Message) (i : Nat) (m x : Message)
    (hx : l[i]? = some x) (hid : x._id = m._id) :
    truthyIds (l.set i m) = truthyIds l := by
  have hsame : truthyIdOf x = truthyIdOf m := by
    simp [truthyIdOf, hid]
  induction l generalizing i with
  | nil => simp at hx
  | cons y ys ih =>
    cases i with
    | zero =>
      simp at hx
      subst hx
      simp [List.set, truthyIds, List.filterMap_cons, hsame]
    | succ j =>
      simp at hx
      simp [List.set, truthyIds, List.filterMap_cons]
      have := ih j hx
      simp [truthyIds] at this
      simp [this]

theorem mem_seedIds {s : String} {l : List Message} :
    s ∈ seedIds l ↔ ∃ m ∈ l, truthyIdOf m = some s := by
  simp [seedIds, List.mem_toFinset, mem_truthyIds]

/-! ### Branch characterizations of the WebSocket apply function -/

theorem wsHandleNewMessage_of_none (st : WsState) (msg : Message)
    (h : msg._id = none) :
    wsHandleNewMessage st msg = { st with messages := st.messages ++ [msg] } := by
  simp [wsHandleNewMessage, h]

theorem wsHandleNewMessage_of_empty (st : WsState) (msg : Message)
    (h : msg._id = some "") :
    wsHandleNewMessage st msg = { st with messages := st.messages ++ [msg] } := by
  simp [wsHandleNewMessage, h]

theorem wsHandleNewMessage_of_tracked (st : WsState) (msg : Message) (s : String)
    (h : msg._id = some s) (hs : s ≠ "") (hmem : s ∈ st.messageIds) :
    wsHandleNewMessage st msg = st := by
  simp [wsHandleNewMessage, h, hs, hmem]

theorem wsHandleNewMessage_of_new_found (st : WsState) (msg : Message) (s : String)
    (idx : Nat) (h : msg._id = some s) (hs : s ≠ "") (hmem : s ∉ st.messageIds)
    (hfi : findIndex (fun m => m._id == some s) st.messages = some idx) :
    wsHandleNewMessage st msg = ⟨st.messages.set idx msg, insert s st.messageIds⟩ := by
  simp [wsHandleNewMessage, h, hs, hmem, hfi]

theorem wsHandleNewMessage_of_new_notfound (st : WsState) (msg : Message) (s : String)
    (h : msg._id = some s) (hs : s ≠ "") (hmem : s ∉ st.messageIds)
    (hfi : findIndex (fun m => m._id == some s) st.messages = none) :
    wsHandleNewMessage st msg = ⟨st.messages ++ [msg], insert s st.messageIds⟩ := by
  simp [wsHandleNewMessage, h, hs, hmem, hfi]

/-! ### Preservation of the at-most-one-entry-per-id invariant -/

theorem uniqueIds_append (l : List Message) (msg : Message)
    (h : uniqueIds l)
    (hfresh : ∀ s, truthyIdOf msg = some s → s ∉ truthyIds l) :
    uniqueIds (l ++ [msg]) := by
  unfold uniqueIds at *
  rw [truthyIds_append]
  cases hm : truthyIdOf msg with
  | none =>
    have h2 : truthyIds [msg] = [] := by simp [truthyIds, List.filterMap_cons, hm]
    simpa [h2] using h
  | some s =>
    have hs := hfresh s hm
    have h2 : truthyIds [msg] = [s] := by simp [truthyIds, List.filterMap_cons, hm]
    rw [h2, List.nodup_append]
    refine ⟨h, List.nodup_singleton s, ?_⟩
    intro a ha hb
    simp at hb
    subst hb
    exact hs ha

theorem sse_apply_uniqueIds (prev : List Message) (msg : Message)
    (h : uniqueIds prev) : uniqueIds (sseHandleNewMessage prev msg) := by
  unfold sseHandleNewMessage
  cases hfi : findIndex (fun m => m._id == msg._id) prev with
  | some idx =>
    obtain ⟨x, hx, hpx⟩ := findIndex_eq_some _ _ _ hfi
    have hid : x._id = msg._id := by simpa using hpx
    unfold uniqueIds
    rw [truthyIds_set prev idx msg x hx hid]
    exact h
  | none =>
    apply uniqueIds_append prev msg h
    intro s hm hmem
    obtain ⟨y, hy, hys⟩ := mem_truthyIds.mp hmem
    have h1 := truthyIdOf_eq_some_iff.mp hys
    have h2 := truthyIdOf_eq_some_iff.mp hm
    have h3 := (findIndex_eq_none_iff _ _).mp hfi y hy
    rw [h1.1, h2.1] at h3
    simp at h3

theorem ws_apply_uniqueIds (st : WsState) (msg : Message)
    (h : uniqueIds st.messages) : uniqueIds (wsHandleNewMessage st msg).messages := by
  cases hid : msg._id with
  | none =>
    rw [wsHandleNewMessage_of_none st msg hid]
    apply uniqueIds_append _ _ h
    intro s hm
    rw [truthyIdOf_eq_some_iff, hid] at hm
    exact absurd hm.1 (by simp)
  | some t =>
    by_cases ht : t = ""
    · subst ht
      rw [wsHandleNewMessage_of_empty st msg hid]
      apply uniqueIds_append _ _ h
      intro s hm
      rw [truthyIdOf_eq_some_iff, hid] at hm
      obtain ⟨h1, h2⟩ := hm
      have h3 : "" = s := by injection h1
      exact absurd h3.symm h2
    · by_cases hmem : t ∈ st.messageIds
      · rw [wsHandleNewMessage_of_tracked st msg t hid ht hmem]
        exact h
      · cases hfi : findIndex (fun m => m._id == some t) st.messages with
        | some idx =>
          rw [wsHandleNewMessage_of_new_found st msg t idx hid ht hmem hfi]
          obtain ⟨x, hx, hpx⟩ := findIndex_eq_some _ _ _ hfi
          have hxid : x._id = msg._id := by rw [hid]; simpa using hpx
          unfold uniqueIds
          rw [truthyIds_set st.messages idx msg x hx hxid]
          exact h
        | none =>
          rw [wsHandleNewMessage_of_new_notfound st msg t hid ht hmem hfi]
          apply uniqueIds_append _ _ h
          intro s hm hmemT
          obtain ⟨y, hy, hys⟩ := mem_truthyIds.mp hmemT
          have h1 := truthyIdOf_eq_some_iff.mp hys
          have h2 := truthyIdOf_eq_some_iff.mp hm
          rw [hid] at h2
          have h3 := (findIndex_eq_none_iff _ _).mp hfi y hy
          have h4 : t = s := by injection h2.1
          rw [h1.1, ← h4] at h3
          simp at h3

theorem ws_applyEvents_uniqueIds (es : List Message) : ∀ st : WsState,
    uniqueIds st.messages → uniqueIds (wsApplyEvents st es).messages := by
  induction es with
  | nil => intro st h; simpa [wsApplyEvents] using h
  | cons e rest ih =>
    intro st h
    have h1 := ws_apply_uniqueIds st e h
    simpa [wsApplyEvents, List.foldl_cons] using ih _ h1

theorem sse_applyEvents_uniqueIds (es : List Message) : ∀ prev : List Message,
    uniqueIds prev → uniqueIds (sseApplyEvents prev es) := by
  induction es with
  | nil => intro prev h; simpa [sseApplyEvents] using h
  | cons e rest ih =>
    intro prev h
    have h1 := sse_apply_uniqueIds prev e h
    simpa [sseApplyEvents, List.foldl_cons] using ih _ h1

/-! ### Order preservation for fresh creates -/

theorem truthy_id_shape (o : Option String) (h : idTruthy o = true) :
    ∃ s, o = some s ∧ s ≠ "" := by
  cases he : o with
  | none => rw [he] at h; simp [idTruthy] at h
  | some s => rw [he] at h; simp [idTruthy] at h; exact ⟨s, rfl, h⟩

theorem ws_creates (es : List Message) : ∀ st : WsState,
    (∀ e ∈ es, idTruthy e._id = true) →
    List.Pairwise (fun a b => a._id ≠ b._id) es →
    (∀ e ∈ es, ∀ x ∈ st.messages, x._id ≠ e._id) →
    (∀ e ∈ es, ∀ s, e._id = some s → s ∉ st.messageIds) →
    (wsApplyEvents st es).messages = st.messages ++ es := by
  induction es with
  | nil => intro st _ _ _ _; simp [wsApplyEvents]
  | cons e rest ih =>
    intro st htr hpw hfresh htrk
    obtain ⟨s, hs, hsne⟩ := truthy_id_shape e._id (htr e (by simp))
    have hmem : s ∉ st.messageIds := htrk e (by simp) s hs
    have hfi : findIndex (fun m => m._id == some s) st.messages = none := by
      rw [findIndex_eq_none_iff]
      intro x hx
      have hne := hfresh e (by simp) x hx
      rw [hs] at hne
      simpa using hne
    have hstep := wsHandleNewMessage_of_new_notfound st e s hs hsne hmem hfi
    have hws : wsApplyEvents st (e :: rest)
        = wsApplyEvents (wsHandleNewMessage st e) rest := by
      simp [wsApplyEvents, List.foldl_cons]
    rw [hws, hstep]
    have hrest := ih ⟨st.messages ++ [e], insert s st.messageIds⟩
      (fun e' he' => htr e' (by simp [he']))
      hpw.of_cons
      (by
        intro e' he' x hx
        rcases List.mem_append.mp hx with hx | hx
        · exact hfresh e' (by simp [he']) x hx
        · simp at hx
          subst hx
          exact (List.pairwise_cons.mp hpw).1 e' he')
      (by
        intro e' he' s' hs' hins
        rcases Finset.mem_insert.mp hins with hcase | hcase
        · have hne := (List.pairwise_cons.mp hpw).1 e' he'
          rw [hs, hs', hcase] at hne
          exact hne rfl
        · exact htrk e' (by simp [he']) s' hs' hcase)
    rw [hrest]
    simp

theorem sse_creates (es : List Message) : ∀ prev : List Message,
    List.Pairwise (fun a b => a._id ≠ b._id) es →
    (∀ e ∈ es, ∀ x ∈ prev, x._id ≠ e._id) →
    sseApplyEvents prev es = prev ++ es := by
  induction es with
  | nil => intro prev _ _; simp [sseApplyEvents]
  | cons e rest ih =>
    intro prev hpw hfresh
    have hfi : findIndex (fun m => m._id == e._id) prev = none := by
      rw [findIndex_eq_none_iff]
      intro x hx
      simpa using hfresh e (by simp) x hx
    have hstep : sseHandleNewMessage prev e = prev ++ [e] := by
      simp only [sseHandleNewMessage, hfi]
    have hsse : sseApplyEvents prev (e :: rest)
        = sseApplyEvents (sseHandleNewMessage prev e) rest := by
      simp [sseApplyEvents, List.foldl_cons]
    rw [hsse, hstep]
    have hrest := ih (prev ++ [e]) hpw.of_cons
      (by
        intro e' he' x hx
        rcases List.mem_append.mp hx with hx | hx
        · exact hfresh e' (by simp [he']) x hx
        · simp at hx
          subst hx
          exact (List.pairwise_cons.mp hpw).1 e' he')
    rw [hrest]
    simp

/-! ### Idempotence building blocks -/

theorem sse_apply_of_found (prev : List Message) (msg : Message) (idx : Nat)
    (hfi : findIndex (fun m => m._id == msg._id) prev = some idx) :
    sseHandleNewMessage prev msg = prev.set idx msg := by
  simp only [sseHandleNewMessage, hfi]

theorem sse_apply_of_notfound (prev : List Message) (msg : Message)
    (hfi : findIndex (fun m => m._id == msg._id) prev = none) :
    sseHandleNewMessage prev msg = prev ++ [msg] := by
  simp only [sseHandleNewMessage, hfi]

/-! ### Claim theorems -/

/-- C1: evaluation of the code at the failing input. The claim says an
incoming event with a present id matching an existing collection entry
replaces that entry in place in both variants. In the WebSocket variant
the duplicate check against `messageIds` runs before the update branch,
and the snapshot loader seeds `messageIds` with every snapshot id, so the
edit echo `{id:"1", text:"edited"}` is skipped and the entry keeps its old
text; the SSE variant does update in place. -/
theorem ws_drops_tracked_edit_event :
    wsHandleNewMessage
        (wsLoadMessages (.response true (some [⟨some "1", "Al", "hi", some 100⟩]))).1
        ⟨some "1", "Al", "edited", some 100⟩
      = (wsLoadMessages (.response true (some [⟨some "1", "Al", "hi", some 100⟩]))).1 ∧
    (wsHandleNewMessage
        (wsLoadMessages (.response true (some [⟨some "1", "Al", "hi", some 100⟩]))).1
        ⟨some "1", "Al", "edited", some 100⟩).messages
      = [⟨some "1", "Al", "hi", some 100⟩] ∧
    sseHandleNewMessage [⟨some "1", "Al", "hi", some 100⟩]
        ⟨some "1", "Al", "edited", some 100⟩
      = [⟨some "1", "Al", "edited", some 100⟩] := by
  decide

/-- C2 counterexample: the claim says applying two events both lacking an
id always yields two distinct entries in both variants. In the SSE
variant the `findIndex` test compares absent ids with `===`, which is
true for two `undefined` values, so the second no-id event overwrites the
first: the result has one entry, not two. -/
theorem sse_merges_noid_events_cex :
    sseApplyEvents [] [⟨none, "Al", "first", none⟩, ⟨none, "Bo", "second", none⟩]
      = [⟨none, "Bo", "second", none⟩] := by
  decide

/-- C2 amended: in the WebSocket variant an event with a falsy id (absent
or empty) is always appended; in the SSE variant a no-id event is
appended only when no existing entry lacks an id, and applying two no-id
events to such a collection yields a single appended entry — the second
event, which overwrote the first. -/
theorem noid_event_append_behavior :
    (∀ (st : WsState) (m : Message), idTruthy m._id = false →
        (wsHandleNewMessage st m).messages = st.messages ++ [m]) ∧
    (∀ (prev : List Message) (m : Message), m._id = none →
        (∀ x ∈ prev, x._id ≠ none) → sseHandleNewMessage prev m = prev ++ [m]) ∧
    (∀ (prev : List Message) (m₁ m₂ : Message), m₁._id = none → m₂._id = none →
        (∀ x ∈ prev, x._id ≠ none) → sseApplyEvents prev [m₁, m₂] = prev ++ [m₂]) := by
  refine ⟨?_, ?_, ?_⟩
  · intro st m h
    cases hid : m._id with
    | none => rw [wsHandleNewMessage_of_none st m hid]
    | some s =>
      rw [hid] at h
      simp [idTruthy] at h
      subst h
      rw [wsHandleNewMessage_of_empty st m hid]
  · intro prev m hm hall
    apply sse_apply_of_notfound
    rw [findIndex_eq_none_iff]
    intro x hx
    rw [hm, beq_eq_false_iff_ne]
    exact hall x hx
  · intro prev m₁ m₂ h₁ h₂ hall
    have hfi₁ : findIndex (fun x => x._id == m₁._id) prev = none := by
      rw [findIndex_eq_none_iff]
      intro x hx
      rw [h₁, beq_eq_false_iff_ne]
      exact hall x hx
    have hfi₂ : findIndex (fun x => x._id == m₂._id) prev = none := by
      rw [findIndex_eq_none_iff]
      intro x hx
      rw [h₂, beq_eq_false_iff_ne]
      exact hall x hx
    have hstep₁ : sseHandleNewMessage prev m₁ = prev ++ [m₁] :=
      sse_apply_of_notfound prev m₁ hfi₁
    have hp : (fun x => x._id == m₂._id) m₁ = true := by
      simp [h₁, h₂]
    have hfi₃ := findIndex_append_singleton _ prev m₁ hfi₂ hp
    have hstep₂ : sseHandleNewMessage (prev ++ [m₁]) m₂ = prev ++ [m₂] := by
      rw [sse_apply_of_found (prev ++ [m₁]) m₂ prev.length hfi₃, set_append_length]
    have hfold : sseApplyEvents prev [m₁, m₂]
        = sseHandleNewMessage (sseHandleNewMessage prev m₁) m₂ := by
      simp [sseApplyEvents, List.foldl_cons]
    rw [hfold, hstep₁, hstep₂]

/-- C2 amended witness at concrete inputs. -/
theorem noid_event_append_behavior_witness :
    idTruthy (⟨none, "Al", "a", none⟩ : Message)._id = false ∧
    (wsHandleNewMessage ⟨[], ∅⟩ ⟨none, "Al", "a", none⟩).messages
      = [] ++ [⟨none, "Al", "a", none⟩] ∧
    sseApplyEvents [] [⟨none, "Al", "a", none⟩, ⟨none, "Bo", "b", none⟩]
      = [] ++ [⟨none, "Bo", "b", none⟩] :=
  ⟨by decide, noid_event_append_behavior.1 ⟨[], ∅⟩ _ (by decide),
    noid_event_append_behavior.2.2 [] _ _ rfl rfl (by simp)⟩

/-- C3: applying a message with a present (truthy) id twice in a row via
`handleNewMessage` gives the same state as applying it once, for every
starting collection-plus-tracker state, in both transport variants. -/
theorem apply_idempotent (m : Message) (h : idTruthy m._id = true) :
    (∀ st : WsState,
        wsHandleNewMessage (wsHandleNewMessage st m) m = wsHandleNewMessage st m) ∧
    (∀ prev : List Message,
        sseHandleNewMessage (sseHandleNewMessage prev m) m
          = sseHandleNewMessage prev m) := by
  obtain ⟨s, hs, hsne⟩ := truthy_id_shape m._id h
  constructor
  · intro st
    by_cases hmem : s ∈ st.messageIds
    · rw [wsHandleNewMessage_of_tracked st m s hs hsne hmem,
        wsHandleNewMessage_of_tracked st m s hs hsne hmem]
    · cases hfi : findIndex (fun x => x._id == some s) st.messages with
      | some idx =>
        rw [wsHandleNewMessage_of_new_found st m s idx hs hsne hmem hfi]
        exact wsHandleNewMessage_of_tracked _ m s hs hsne (by simp)
      | none =>
        rw [wsHandleNewMessage_of_new_notfound st m s hs hsne hmem hfi]
        exact wsHandleNewMessage_of_tracked _ m s hs hsne (by simp)
  · intro prev
    cases hfi : findIndex (fun x => x._id == m._id) prev with
    | some idx =>
      have h2 := findIndex_set_self (fun x => x._id == m._id) prev idx m hfi (by simp)
      rw [sse_apply_of_found prev m idx hfi,
        sse_apply_of_found (prev.set idx m) m idx h2, List.set_set]
    | none =>
      have h2 := findIndex_append_singleton (fun x => x._id == m._id) prev m hfi (by simp)
      rw [sse_apply_of_notfound prev m hfi,
        sse_apply_of_found (prev ++ [m]) m prev.length h2, set_append_length]

/-- C3 witness at a concrete message and state. -/
theorem apply_idempotent_witness :
    idTruthy (⟨some "x", "Al", "t", none⟩ : Message)._id = true ∧
    wsHandleNewMessage (wsHandleNewMessage ⟨[], ∅⟩ ⟨some "x", "Al", "t", none⟩)
        ⟨some "x", "Al", "t", none⟩
      = wsHandleNewMessage ⟨[], ∅⟩ ⟨some "x", "Al", "t", none⟩ ∧
    sseHandleNewMessage (sseHandleNewMessage [] ⟨some "x", "Al", "t", none⟩)
        ⟨some "x", "Al", "t", none⟩
      = sseHandleNewMessage [] ⟨some "x", "Al", "t", none⟩ :=
  ⟨by decide, (apply_idempotent _ (by decide)).1 _, (apply_idempotent _ (by decide)).2 _⟩

/-- C4: starting from a snapshot whose entries carry pairwise-distinct
present ids, applying any sequence of live events leaves at most one
entry per present id, in both variants (the WebSocket snapshot also seeds
the id tracker, as `loadMessages` does). -/
theorem uniqueIds_preserved (snapshot es : List Message) (h : uniqueIds snapshot) :
    uniqueIds (wsApplyEvents
        (wsLoadMessages (.response true (some snapshot))).1 es).messages ∧
    uniqueIds (sseApplyEvents
        (sseLoadMessages (.response true (some snapshot))).1 es) := by
  constructor
  · exact ws_applyEvents_uniqueIds es _ h
  · exact sse_applyEvents_uniqueIds es _ h

/-- C4 witness: a snapshot entry with id "1" and a redelivered live event
with the same id leave the invariant intact. -/
theorem uniqueIds_preserved_witness :
    uniqueIds [⟨some "1", "Al", "hi", some 100⟩] ∧
    uniqueIds (wsApplyEvents
        (wsLoadMessages (.response true (some [⟨some "1", "Al", "hi", some 100⟩]))).1
        [⟨some "1", "Al", "hi", some 100⟩]).messages ∧
    uniqueIds (sseApplyEvents
        (sseLoadMessages (.response true (some [⟨some "1", "Al", "hi", some 100⟩]))).1
        [⟨some "1", "Al", "hi", some 100⟩]) :=
  ⟨by decide, (uniqueIds_preserved _ _ (by decide)).1,
    (uniqueIds_preserved _ _ (by decide)).2⟩

/-- C5: in the WebSocket variant, an incoming message whose id is already
in the `messageIds` tracker leaves the whole state unchanged — for every
state, including those whose collection holds an entry with that id — so
the in-place update branch is unreachable for tracked ids. -/
theorem ws_tracked_id_skipped (st : WsState) (m : Message) (s : String)
    (hid : m._id = some s) (hs : s ≠ "") (hmem : s ∈ st.messageIds) :
    wsHandleNewMessage st m = st :=
  wsHandleNewMessage_of_tracked st m s hid hs hmem

/-- C5 witness: the tracked id "1" is skipped even though an entry with id
"1" is present in the collection. -/
theorem ws_tracked_id_skipped_witness :
    (⟨some "1", "Al", "new", none⟩ : Message)._id = some "1" ∧
    ("1" : String) ≠ "" ∧
    ("1" : String) ∈ ({"1"} : Finset String) ∧
    wsHandleNewMessage ⟨[⟨some "1", "Al", "old", none⟩], {"1"}⟩
        ⟨some "1", "Al", "new", none⟩
      = ⟨[⟨some "1", "Al", "old", none⟩], {"1"}⟩ :=
  ⟨rfl, by decide, by decide,
    ws_tracked_id_skipped _ _ "1" rfl (by decide) (by decide)⟩

/-- C6 counterexample: the claim says a malformed payload is dropped with
a logged failure by both variants' inbound handlers. The SSE `onmessage`
handler has no catch: on a malformed frame it raises out of the handler
instead of returning an updated collection. -/
theorem sse_malformed_frame_throws_cex :
    sseOnMessageE [] Frame.malformed = Except.error () := rfl

/-- C6 amended: the WebSocket handler catches a malformed frame, logs and
drops it, so delivering any sequence with a malformed frame is equivalent
to delivering the sequence with that frame deleted. The SSE handler does
not catch — the decode failure propagates out of the handler, uncaught
and unlogged by the page — but it throws before any state update, so
under the host's event dispatch (which isolates handler exceptions and
keeps the stream alive) the same deletion equation holds. -/
theorem malformed_frame_deleted :
    (∀ (st : WsState) (fs₁ fs₂ : List Frame),
        wsProcessFrames st (fs₁ ++ Frame.malformed :: fs₂)
          = wsProcessFrames st (fs₁ ++ fs₂)) ∧
    (∀ (prev : List Message) (fs₁ fs₂ : List Frame),
        sseProcessFrames prev (fs₁ ++ Frame.malformed :: fs₂)
          = sseProcessFrames prev (fs₁ ++ fs₂)) ∧
    (∀ prev : List Message, sseOnMessageE prev Frame.malformed = Except.error ()) := by
  refine ⟨?_, ?_, fun prev => rfl⟩
  · intro st fs₁ fs₂
    simp [wsProcessFrames, List.foldl_append, List.foldl_cons, wsOnMessage]
  · intro prev fs₁ fs₂
    simp [sseProcessFrames, List.foldl_append, List.foldl_cons, sseOnMessageE]

/-- C7 counterexample: the claim says a failed send request leaves the
user-entered text in place and reports the failure in both variants. In
the SSE variant a resolved-but-failed response (`ok = false`) still
clears the text to the empty string — the entered text "hi" is lost — and
nothing is logged. -/
theorem sse_send_failure_clears_text_cex :
    (sseSendMessage ⟨[], "hi", "Al", none, ""⟩ (RequestOutcome.response false)).1.text
      = "" ∧
    ("hi" : String) ≠ "" ∧
    (sseSendMessage ⟨[], "hi", "Al", none, ""⟩ (RequestOutcome.response false)).2
      = false := by
  decide

/-- C7 amended: with non-empty trimmed text and author, the WebSocket
`sendMessage` keeps the text and logs on a network error or a non-success
response, clearing the text only on success; the SSE `sendMessage` keeps
the text on a network error (aborting before the clear, without logging)
but clears it on any resolved response, success or not. -/
theorem send_failure_text_behavior (st : WsComponent) (st' : SseComponent)
    (h₁ : (jsTrim st.text == "") = false) (h₂ : (jsTrim st.author == "") = false)
    (h₃ : (jsTrim st'.text == "") = false) (h₄ : (jsTrim st'.author == "") = false) :
    wsSendMessage st RequestOutcome.netError = (st, true) ∧
    wsSendMessage st (RequestOutcome.response false) = (st, true) ∧
    wsSendMessage st (RequestOutcome.response true) = ({ st with text := "" }, false) ∧
    sseSendMessage st' RequestOutcome.netError = (st', false) ∧
    (∀ ok : Bool,
        sseSendMessage st' (RequestOutcome.response ok)
          = ({ st' with text := "" }, false)) := by
  have hg : (jsTrim st.text == "" || jsTrim st.author == "") = false := by
    rw [h₁, h₂]; rfl
  have hg' : (jsTrim st'.text == "" || jsTrim st'.author == "") = false := by
    rw [h₃, h₄]; rfl
  refine ⟨?_, ?_, ?_, ?_, fun ok => ?_⟩ <;>
    simp [wsSendMessage, sseSendMessage, hg, hg']

/-- C7 amended witness at concrete component states. -/
theorem send_failure_text_behavior_witness :
    (jsTrim "hi" == "") = false ∧
    wsSendMessage ⟨[], "hi", "Al", none, "", ∅⟩ RequestOutcome.netError
      = (⟨[], "hi", "Al", none, "", ∅⟩, true) ∧
    sseSendMessage ⟨[], "yo", "Bo", none, ""⟩ (RequestOutcome.response false)
      = (⟨[], "", "Bo", none, ""⟩, false) :=
  ⟨by decide,
    (send_failure_text_behavior ⟨[], "hi", "Al", none, "", ∅⟩ ⟨[], "yo", "Bo", none, ""⟩
      (by decide) (by decide) (by decide) (by decide)).1,
    (send_failure_text_behavior ⟨[], "hi", "Al", none, "", ∅⟩ ⟨[], "yo", "Bo", none, ""⟩
      (by decide) (by decide) (by decide) (by decide)).2.2.2.2 false⟩

/-- C8: create events with pairwise-distinct present ids, none of which
occur in the snapshot (and hence none in the WebSocket tracker seeded
from it), are appended in delivery order after the snapshot entries, in
both variants. -/
theorem creates_preserve_order (snapshot es : List Message)
    (htr : ∀ e ∈ es, idTruthy e._id = true)
    (hpw : List.Pairwise (fun a b => a._id ≠ b._id) es)
    (hfresh : ∀ e ∈ es, ∀ x ∈ snapshot, x._id ≠ e._id) :
    (wsApplyEvents (wsLoadMessages (.response true (some snapshot))).1 es).messages
      = snapshot ++ es ∧
    sseApplyEvents (sseLoadMessages (.response true (some snapshot))).1 es
      = snapshot ++ es := by
  constructor
  · apply ws_creates es ⟨snapshot, seedIds snapshot⟩ htr hpw hfresh
    intro e he s hs hmem
    obtain ⟨m, hm, hms⟩ := mem_seedIds.mp hmem
    have h1 := truthyIdOf_eq_some_iff.mp hms
    exact hfresh e he m hm (h1.1.trans hs.symm)
  · exact sse_creates es snapshot hpw hfresh

/-- C8 witness: three creates `b`, `c`, `d` after a snapshot holding `a`
end up in delivery order after the snapshot entry. -/
theorem creates_preserve_order_witness :
    (∀ e ∈ [(⟨some "b", "Bo", "1", none⟩ : Message), ⟨some "c", "Cy", "2", none⟩,
        ⟨some "d", "Di", "3", none⟩], idTruthy e._id = true) ∧
    List.Pairwise (fun a b => a._id ≠ b._id)
      [(⟨some "b", "Bo", "1", none⟩ : Message), ⟨some "c", "Cy", "2", none⟩,
        ⟨some "d", "Di", "3", none⟩] ∧
    (wsApplyEvents
        (wsLoadMessages (.response true (some [⟨some "a", "Al", "0", none⟩]))).1
        [⟨some "b", "Bo", "1", none⟩, ⟨some "c", "Cy", "2", none⟩,
          ⟨some "d", "Di", "3", none⟩]).messages
      = [⟨some "a", "Al", "0", none⟩] ++
        [⟨some "b", "Bo", "1", none⟩, ⟨some "c", "Cy", "2", none⟩,
          ⟨some "d", "Di", "3", none⟩] ∧
    sseApplyEvents
        (sseLoadMessages (.response true (some [⟨some "a", "Al", "0", none⟩]))).1
        [⟨some "b", "Bo", "1", none⟩, ⟨some "c", "Cy", "2", none⟩,
          ⟨some "d", "Di", "3", none⟩]
      = [⟨some "a", "Al", "0", none⟩] ++
        [⟨some "b", "Bo", "1", none⟩, ⟨some "c", "Cy", "2", none⟩,
          ⟨some "d", "Di", "3", none⟩] :=
  ⟨by decide, by decide,
    (creates_preserve_order _ _ (by decide) (by decide) (by decide)).1,
    (creates_preserve_order _ _ (by decide) (by decide) (by decide)).2⟩

/-- C9 counterexample: the claim says a non-success snapshot response
starts the session with an empty collection. Neither `loadMessages` reads
`response.ok`: a non-success response whose body still parses as a
message list is installed as the snapshot, so the collection is not
empty. -/
theorem load_nonsuccess_body_installed_cex :
    (wsLoadMessages (.response false (some [⟨some "1", "Al", "hi", some 100⟩]))).1.messages
      = [⟨some "1", "Al", "hi", some 100⟩] ∧
    (sseLoadMessages (.response false (some [⟨some "1", "Al", "hi", some 100⟩]))).1
      = [⟨some "1", "Al", "hi", some 100⟩] ∧
    ([⟨some "1", "Al", "hi", some 100⟩] : List Message) ≠ [] := by
  decide

/-- C9 amended: if the snapshot fetch throws — a network error, or a
response whose body fails to parse — both variants start with the empty
collection (and empty tracker) and log the failure; the status itself is
never checked, so a response with a parseable body is installed as the
snapshot regardless of success. -/
theorem load_failure_behavior :
    wsLoadMessages FetchMessagesOutcome.netError = (⟨[], ∅⟩, true) ∧
    (∀ ok : Bool, wsLoadMessages (.response ok none) = (⟨[], ∅⟩, true)) ∧
    sseLoadMessages FetchMessagesOutcome.netError = ([], true) ∧
    (∀ ok : Bool, sseLoadMessages (.response ok none) = ([], true)) ∧
    (∀ (ok : Bool) (body : List Message),
        (wsLoadMessages (.response ok (some body))).1.messages = body) ∧
    (∀ (ok : Bool) (body : List Message),
        (sseLoadMessages (.response ok (some body))).1 = body) :=
  ⟨rfl, fun _ => rfl, rfl, fun _ => rfl, fun _ _ => rfl, fun _ _ => rfl⟩

/-- C10: the gateway operations `sendMessage` and `saveEdit` never touch
the message collection: for every component state and request outcome,
successful or failed, the `messages` field is unchanged, in both
variants. -/
theorem gateway_preserves_messages :
    (∀ (st : WsComponent) (o : RequestOutcome),
        (wsSendMessage st o).1.messages = st.messages) ∧
    (∀ (st : WsComponent) (editId : String) (o : RequestOutcome),
        (wsSaveEdit st editId o).1.messages = st.messages) ∧
    (∀ (st : SseComponent) (o : RequestOutcome),
        (sseSendMessage st o).1.messages = st.messages) ∧
    (∀ (st : SseComponent) (editId : String) (o : RequestOutcome),
        (sseSaveEdit st editId o).1.messages = st.messages) := by
  refine ⟨?_, ?_, ?_, ?_⟩
  · intro st o
    unfold wsSendMessage
    split
    · rfl
    · cases o with
      | netError => rfl
      | response ok => cases ok <;> rfl
  · intro st editId o
    cases o <;> rfl
  · intro st o
    unfold sseSendMessage
    split
    · rfl
    · cases o <;> rfl
  · intro st editId o
    cases o <;> rfl

end Messenger

